import Mathlib

/-!
Verification of the Rune-X recognition-and-reconstruction pipeline
(`src/lib/ai-processor.ts`, reachable through `src/app/api/process/route.ts`,
and the batch endpoint `src/app/api/batch/route.ts`).

The TypeScript code is embedded shallowly: every external effect (Gemini
HTTP calls, the Hugging Face post-processing probe, the glyph store, the
GRM reconstruction backend) is passed in as explicit data, so each pipeline
function becomes a total, executable Lean function.  Confidence values are
rationals; JavaScript truthiness on strings and numbers is modelled
explicitly.
-/

namespace RuneX

/-- JavaScript `\s` whitespace (the code points relevant to this code base). -/
def isWs (c : Char) : Bool :=
  c = ' ' || c = '\t' || c = '\n' || c = '\r' || c = Char.ofNat 11 || c = Char.ofNat 12

/-- The punctuation exclusion set of `matchGlyphs`
(the regex `[.,;:!?\-_=+()\[\]{}]` at route.ts:1051). -/
def exclusionSet : List Char :=
  ['.', ',', ';', ':', '!', '?', '-', '_', '=', '+', '(', ')', '[', ']',
    Char.ofNat 123, Char.ofNat 125]

/-- JS `String.prototype.trim`: strip leading and trailing whitespace. -/
def jsTrim (s : String) : String :=
  ⟨((s.toList.dropWhile isWs).reverse.dropWhile isWs).reverse⟩

/-- JS `String.prototype.toLowerCase` (ASCII case folding suffices here). -/
def toLowerStr (s : String) : String :=
  ⟨s.toList.map Char.toLower⟩

/-- JS truthiness of an optional string: `undefined`/`null`/`""` are falsy. -/
def truthyS (o : Option String) : Bool :=
  match o with
  | some s => !s.isEmpty
  | none => false

/-- JS `x || d` for an optional numeric field (`null`/`undefined`/`0` are falsy). -/
def jsOrRat (o : Option Rat) (d : Rat) : Rat :=
  match o with
  | some v => if v = 0 then d else v
  | none => d

/-- Does the character list `p` occur at the head of `l`? -/
def leadMatch : List Char → List Char → Bool
  | [], _ => true
  | _ :: _, [] => false
  | p :: ps, c :: cs => p = c && leadMatch ps cs

/-- Substring occurrence on character lists (JS `String.prototype.includes`). -/
def listContainsSub (p : List Char) : List Char → Bool
  | [] => leadMatch p []
  | c :: cs => leadMatch p (c :: cs) || listContainsSub p cs

/-- JS `s.includes(pat)`. -/
def strContains (s pat : String) : Bool :=
  listContainsSub pat.toList s.toList

/-- First UTF-16 code unit of a string (JS `s.charCodeAt(0)`), `none` for `""`
(where JS yields `NaN`, which compares unequal to everything). -/
def utf16FirstCode (s : String) : Option Nat :=
  match s.toList with
  | [] => none
  | c :: _ =>
    if c.toNat < 0x10000 then some c.toNat
    else some (0xD800 + (c.toNat - 0x10000) / 0x400)

/-- JS `a.charCodeAt(0) === b.charCodeAt(0)` (false whenever either side is `NaN`). -/
def u16HeadEq (a b : String) : Bool :=
  match utf16FirstCode a, utf16FirstCode b with
  | some x, some y => x = y
  | _, _ => false

/-- A row of the glyph store (Prisma `Glyph`), as read by `matchGlyphs`. -/
structure GlyphRecord where
  symbol : String
  name : Option String
  description : Option String
  confidence : Option Rat
  scriptName : Option String
  deriving Repr, DecidableEq

/-- Synthesized bounding box placeholder. -/
structure BBox where
  x : Nat
  y : Nat
  width : Nat
  height : Nat
  deriving Repr, DecidableEq

/-- The `GlyphMatch` record as produced by `matchGlyphs` (ai-processor.ts). -/
structure GlyphMatch where
  symbol : String
  confidence : Rat
  position : Nat
  boundingBox : Option BBox
  meaning : Option String
  deriving Repr, DecidableEq

/-- Environment flags read from `process.env`. -/
structure Env where
  geminiKey : Bool
  nodeDev : Bool
  ocrFallbackFlag : Bool
  deriving Repr, DecidableEq

/-- Exact store lookup: `dbGlyphs.find(g => g.symbol === char)`. -/
def findGlyphExact (store : List GlyphRecord) (c : Char) : Option GlyphRecord :=
  store.find? (fun g => g.symbol = c.toString)

/-- Relaxed store lookup for OCR errors (route.ts:1061-1066): same first
UTF-16 code unit, or equal symbol, or case-insensitive name containment. -/
def findGlyphRelaxed (store : List GlyphRecord) (c : Char) : Option GlyphRecord :=
  store.find? (fun g =>
    u16HeadEq g.symbol c.toString || g.symbol = c.toString ||
      (truthyS g.name && strContains (toLowerStr (g.name.getD "")) (toLowerStr c.toString)))

/-- The store lookup performed per character: exact match, then relaxed match. -/
def findGlyph (store : List GlyphRecord) (c : Char) : Option GlyphRecord :=
  match findGlyphExact store c with
  | some g => some g
  | none => findGlyphRelaxed store c

/-- Models `glyph.description || glyph.name` (JS `||` on possibly-empty strings). -/
def dbMeaningOf (g : GlyphRecord) : Option String :=
  if truthyS g.description then g.description else g.name

/-- The placeholder test of route.ts:1072-1075. -/
def isPlaceholderMeaning (m : Option String) : Bool :=
  !truthyS m || strContains (m.getD "") "Character:" ||
    strContains (m.getD "") "Unknown" || strContains (m.getD "") "not available"

/-- Sentinel meaning used when a stored glyph has only a placeholder meaning. -/
def unknownCharMsg : String := "Unknown character (may need to be added to database)"

/-- Sentinel meaning used when a character is absent from the store and every
meaning lookup failed. -/
def noMeaningMsg : String := "Character recognized but meaning not available"

/-- The last-resort single-character meaning request (route.ts:1134-1172):
issued only when a Gemini key is configured; a response is kept only when its
trimmed text is non-empty.  `fb` is the network oracle for this request. -/
def singleCharFB (env : Env) (fb : Char → Option String) (c : Char) : Option String :=
  if env.geminiKey then
    match fb c with
    | some t => if (jsTrim t).isEmpty then none else some (jsTrim t)
    | none => none
  else none

/-- The synthesized bounding box for position `i` (route.ts:1103-1108). -/
def synthBox (i : Nat) : BBox :=
  { x := i * 60 + 10, y := 20, width := 50, height := 50 }

/-- Processing of one qualifying character of the extracted text
(the loop body of `matchGlyphs`, route.ts:1047-1188).  `aiM` is the meanings
record returned by `getCharacterMeanings`; `fb` the single-character fallback
oracle.  Returns `none` exactly for excluded punctuation. -/
def matchChar (env : Env) (store : List GlyphRecord) (aiM : Char → Option String)
    (fb : Char → Option String) (i : Nat) (c : Char) : Option GlyphMatch :=
  if c ∈ exclusionSet then none
  else
    match findGlyph store c with
    | some g =>
      let dbM := dbMeaningOf g
      let placeholder := isPlaceholderMeaning dbM
      let finalMeaning :=
        if truthyS (aiM c) then aiM c
        else if truthyS dbM && !placeholder then dbM
        else some unknownCharMsg
      let conf : Rat :=
        if truthyS (aiM c) then 17/20
        else if truthyS dbM && !placeholder then max (jsOrRat g.confidence (3/4)) (3/4)
        else 3/5
      some { symbol := c.toString, confidence := conf, position := i,
             boundingBox := some (synthBox i), meaning := finalMeaning }
    | none =>
      if truthyS (aiM c) then
        some { symbol := c.toString, confidence := 17/20, position := i,
               boundingBox := some (synthBox i), meaning := aiM c }
      else
        match singleCharFB env fb c with
        | some m =>
          some { symbol := c.toString, confidence := 7/10, position := i,
                 boundingBox := some (synthBox i), meaning := some m }
        | none =>
          some { symbol := c.toString, confidence := 3/5, position := i,
                 boundingBox := some (synthBox i), meaning := some noMeaningMsg }

/-- The whitespace-stripped character sequence the matcher iterates
(`Array.from(extractedText.replace(/\s+/g, ''))`). -/
def strippedChars (text : String) : List Char :=
  text.toList.filter (fun c => !isWs c)

/-- The `matchGlyphs` function (ai-processor.ts), with the AI meanings record and the
single-character fallback passed in as data. -/
def matchGlyphs (env : Env) (store : List GlyphRecord) (aiM : Char → Option String)
    (fb : Char → Option String) (text : String) : List GlyphMatch :=
  if text.isEmpty then []
  else ((strippedChars text).enum).filterMap (fun p => matchChar env store aiM fb p.1 p.2)

/-! ### `getCharacterMeanings` (ai-processor.ts:822-1014) -/

/-- CJK test `/[一-鿿]/`. -/
def isCJK (c : Char) : Bool :=
  0x4e00 ≤ c.toNat && c.toNat ≤ 0x9fff

/-- First-occurrence deduplication (JS `new Set`, which preserves insertion order). -/
def uniqAux : List Char → List Char → List Char
  | [], acc => acc.reverse
  | c :: cs, acc => if c ∈ acc then uniqAux cs acc else uniqAux cs (c :: acc)

/-- The distinct qualifying characters whose meanings are requested in bulk:
whitespace removed, deduplicated, restricted to the CJK range. -/
def uniqueCJKChars (text : String) : List Char :=
  (uniqAux (strippedChars text) []).filter isCJK

/-- Validation applied to a parsed meanings object: keep only entries whose
value trims to a non-empty string, storing the trimmed value. -/
def cleanMeanings (l : List (Char × String)) : List (Char × String) :=
  (l.map (fun p => (p.1, jsTrim p.2))).filter (fun p => !p.2.isEmpty)

/-- Embeds `getCharacterMeanings`: no request is issued when the text holds no CJK
character or no Gemini key is configured; otherwise the bulk request
(`netPrimary`, `none` = failed or unparseable) is used, and if it produced no
meanings the batched fallback request (`netBatch`) is consulted. -/
def getCharacterMeanings (env : Env) (netPrimary netBatch : Option (List (Char × String)))
    (text : String) : List (Char × String) :=
  if text.isEmpty then []
  else
    let uniq := uniqueCJKChars text
    if uniq.isEmpty then []
    else if env.geminiKey then
      let primary := cleanMeanings (netPrimary.getD [])
      if primary.isEmpty then cleanMeanings (netBatch.getD []) else primary
    else []

/-- Record lookup `meanings[char]`. -/
def aiLookup (m : List (Char × String)) (c : Char) : Option String :=
  (m.find? (fun p => p.1 = c)).map (fun p => p.2)

/-- The composition of `matchGlyphs` with `getCharacterMeanings` (the translation context only
biases the prompt text of the bulk request, so it does not appear here). -/
def matchGlyphsTop (env : Env) (store : List GlyphRecord)
    (netPrimary netBatch : Option (List (Char × String)))
    (fb : Char → Option String) (text : String) : List GlyphMatch :=
  matchGlyphs env store (aiLookup (getCharacterMeanings env netPrimary netBatch text)) fb text

/-! ### OCR orchestrator (ai-processor.ts:569-816) -/

/-- Tag of an `OCRResult`. -/
inductive OCRMethod where
  | huggingface | tesseract | gemini | fallback | alternative | huggingfaceAncient
  deriving Repr, DecidableEq

def OCRMethod.str : OCRMethod → String
  | .huggingface => "huggingface"
  | .tesseract => "tesseract"
  | .gemini => "gemini"
  | .fallback => "fallback"
  | .alternative => "alternative"
  | .huggingfaceAncient => "huggingface-ancient"

/-- The `OCRResult` record of ai-processor.ts. -/
structure OCRResult where
  text : String
  confidence : Rat
  method : OCRMethod
  error : Option String
  deriving Repr, DecidableEq

/-- Outcome of one Gemini extraction attempt (one entry of `apiConfigs`):
a 404, a 429, another application-level error (with parsed details), a thrown
transport error, or a 2xx response carrying the extracted text (possibly empty). -/
inductive GResp where
  | notFound
  | rateLimited
  | httpError (details : String)
  | thrown (msg : String)
  | ok (text : String)
  deriving Repr, DecidableEq

/-- Does this response make the loop advance to the next configuration? -/
def advances : GResp → Bool
  | .ok t => t.isEmpty
  | _ => true

/-- The `lastError` accumulator update for one response. -/
def lastErrStep (le : Option String) : GResp → Option String
  | .httpError d => some ("Gemini API error: " ++ d)
  | .thrown m => some m
  | _ => le

/-- The configuration loop of `extractTextWithGemini` (ai-processor.ts:591-682):
404/429 advance without capturing an error, application errors and thrown
errors are captured as `lastError` and advance, an empty-text success advances,
and the first non-empty text returns immediately with confidence 0.90. -/
def geminiLoop : List GResp → Option String → OCRResult
  | [], le => { text := "", confidence := 0, method := .gemini,
                error := some (le.getD "Unknown Gemini API error") }
  | .notFound :: rest, le => geminiLoop rest le
  | .rateLimited :: rest, le => geminiLoop rest le
  | .httpError d :: rest, _ => geminiLoop rest (some ("Gemini API error: " ++ d))
  | .thrown m :: rest, _ => geminiLoop rest (some m)
  | .ok t :: rest, le =>
    if t.isEmpty then geminiLoop rest le
    else { text := jsTrim t, confidence := 9/10, method := .gemini, error := none }

/-- Embeds `extractTextWithGemini` for a configured key, over the per-configuration
response list. -/
def extractTextWithGemini (rs : List GResp) : OCRResult :=
  geminiLoop rs none

/-- Embeds `postProcessWithAncientChineseModels` (ai-processor.ts:690-747).  The probe
oracle is `pp` (`none` = request threw, `some ok` = response with that status);
every branch returns the input text unchanged (validation only). -/
def postProcessWithAncientChineseModels (pp : Option Bool) (text : String) : String :=
  if text.isEmpty then text
  else
    match pp with
    | some true => text
    | some false => text
    | none => text

def allFailedMsg : String :=
  "All OCR methods failed. Please ensure the image is clear and contains readable text."

/-- The failure result returned when the methods list is exhausted. -/
def fallbackFailure : OCRResult :=
  { text := "", confidence := 0, method := .fallback, error := some allFailedMsg }

/-- The confidence boost applied when post-processing changed the text. -/
def ppBump (c : Rat) : Rat :=
  min (c + 1/20) (19/20)

/-- Embeds `extractTextFromImage` (ai-processor.ts:752-816): the methods list holds
only the Gemini method, and only when the key is configured; a successful
extraction is passed through the post-processing verification, whose output
replaces the text (with a capped confidence boost) only when it differs. -/
def extractTextFromImage (env : Env) (rs : List GResp) (pp : Option Bool) : OCRResult :=
  if env.geminiKey then
    let r := extractTextWithGemini rs
    if !r.text.isEmpty then
      let improved := postProcessWithAncientChineseModels pp r.text
      if !improved.isEmpty && improved ≠ r.text then
        { r with text := improved, confidence := ppBump r.confidence }
      else r
    else fallbackFailure
  else fallbackFailure

/-! ### Translation generator (ai-processor.ts:1198-1304) -/

/-- The `TranslationResult` record. -/
structure TransResult where
  translation : String
  confidence : Rat
  deriving Repr, DecidableEq

/-- Outcome of one Gemini translation attempt: a 2xx response with its
(possibly empty) translation text, a 404, another HTTP error, or a thrown
error (which may or may not look like a not-found error). -/
inductive TResp where
  | ok (text : String)
  | notFound
  | errOther
  | thrown (looksNotFound : Bool)
  deriving Repr, DecidableEq

/-- The translation configuration loop: every failure (and an empty-text
success) advances to the next configuration; the first non-empty translation
returns with confidence 0.88. -/
def transLoop : List TResp → Option TransResult
  | [] => none
  | .ok t :: rest => if t.isEmpty then transLoop rest else some ⟨jsTrim t, 22/25⟩
  | .notFound :: rest => transLoop rest
  | .errOther :: rest => transLoop rest
  | .thrown _ :: rest => transLoop rest

def apologyMsg : String :=
  "Unable to extract text from image. Please ensure the image is clear and contains readable text."

/-- The static phrase table `commonTranslations` (ai-processor.ts:1278-1286). -/
def commonTranslations : List (String × String) :=
  [("道法自然", "The Tao follows nature - A fundamental concept in Taoist philosophy suggesting that the natural way of things is the best way."),
   ("天人合一", "Heaven and humanity are one - The unity between the cosmos and human existence."),
   ("道德经", "Tao Te Ching - The fundamental text of Taoism attributed to Laozi."),
   ("仁义礼智", "Benevolence, righteousness, propriety, and wisdom - The four cardinal virtues in Confucianism."),
   ("道德", "Virtue and morality - Core ethical principles in Chinese philosophy."),
   ("仁义", "Benevolence and righteousness - Key Confucian virtues."),
   ("智慧", "Wisdom and intelligence - The pursuit of knowledge and understanding.")]

def phraseLookup (text : String) : Option String :=
  (commonTranslations.find? (fun p => p.1 = text)).map (fun p => p.2)

/-- One `symbol (meaning)` element of the templated composition. -/
def glyphEntry (g : GlyphMatch) : String :=
  g.symbol ++ " (" ++ (if truthyS g.meaning then g.meaning.getD "" else "unknown") ++ ")"

/-- The templated generic translation string. -/
def templatedTranslation (text : String) (glyphs : List GlyphMatch) : String :=
  "Translation of \"" ++ text ++
    "\" - This ancient text contains cultural and philosophical significance. Individual characters: " ++
    String.intercalate ", " (glyphs.map glyphEntry)

/-- Embeds `generateTranslation` (ai-processor.ts:1198-1304). -/
def generateTranslation (env : Env) (trs : List TResp) (text : String)
    (glyphs : List GlyphMatch) : TransResult :=
  if text.isEmpty then ⟨apologyMsg, 0⟩
  else
    match (if env.geminiKey then transLoop trs else none) with
    | some r => r
    | none =>
      match phraseLookup text with
      | some t => ⟨t, 9/10⟩
      | none =>
        let avg : Rat :=
          if glyphs.isEmpty then 7/10
          else ((glyphs.map (fun g => g.confidence)).sum) / (glyphs.length : Rat)
        ⟨templatedTranslation text glyphs, min avg (17/20)⟩

/-! ### Pipeline coordinator `processAncientText` (ai-processor.ts:1309-1376) -/

/-- The `ProcessingResult` record (`method` is a plain string in the source). -/
structure ProcessingResult where
  extractedText : String
  glyphs : List GlyphMatch
  scriptType : String
  confidence : Rat
  method : String
  deriving Repr, DecidableEq

/-- The canned development fallback result. -/
def devFallbackResult : ProcessingResult :=
  { extractedText := "道法自然", glyphs := [], scriptType := "Traditional Chinese",
    confidence := 1/2, method := "fallback-dev" }

/-- The error message thrown on total extraction failure. -/
def failMsgOf (ocr : OCRResult) : String :=
  "Failed to extract text from image." ++
    (match ocr.error with | some e => " " ++ e | none => "")

/-- Script-type detection: the first script name among store rows whose symbol
occurs among the matched glyphs (route.ts:1347-1367). -/
def scriptTypeOf (store : List GlyphRecord) (glyphs : List GlyphMatch) : Option String :=
  if glyphs.isEmpty then none
  else ((store.filter (fun g => glyphs.any (fun m => m.symbol = g.symbol))).filterMap
          (fun g => g.scriptName)).head?

/-- Embeds `processAncientText`: OCR, then first-pass translation with an empty glyph
list, then context-aware glyph matching; throws (models `throw new Error`)
exactly when extraction yields empty text and the development fallback is not
permitted. -/
def processAncientText (env : Env) (ocrRs : List GResp) (pp : Option Bool)
    (trs : List TResp) (netP netB : Option (List (Char × String)))
    (fb : Char → Option String) (store : List GlyphRecord) :
    Except String ProcessingResult :=
  let ocr := extractTextFromImage env ocrRs pp
  if ocr.text.isEmpty then
    if env.nodeDev && env.ocrFallbackFlag then .ok devFallbackResult
    else .error (failMsgOf ocr)
  else
    let pass1 := generateTranslation env trs ocr.text []
    let glyphs := matchGlyphsTop env store netP netB fb ocr.text
    .ok { extractedText := ocr.text, glyphs := glyphs,
          scriptType := (scriptTypeOf store glyphs).getD "Traditional Chinese",
          confidence := pass1.confidence, method := ocr.method.str }

/-- Upload status as persisted by the process endpoint. -/
inductive UploadStatus where
  | pending | processing | completed | failed
  deriving Repr, DecidableEq

/-- The status the POST handler of `src/app/api/process/route.ts` persists for
the run, as a function of the `processAncientText` outcome: FAILED when it
threw, COMPLETED otherwise. -/
def postRunStatus (r : Except String ProcessingResult) : UploadStatus :=
  match r with
  | .error _ => .failed
  | .ok _ => .completed

/-! ### GRM policy and the batch endpoint (`src/app/api/batch/route.ts`) -/

/-- Modelled from the spec: the minimal pixel threshold of the GRM damage
policy (`src/lib/grm.ts` is not part of the provided tree); spec §4.4 only
says "a minimal pixel threshold", and §8 requires a 5×5 box to be flagged. -/
def minReconPx : Nat := 10

/-- Modelled from the spec: `needsReconstruction` from the GRM library
(`src/lib/grm.ts`, not part of the provided tree); per spec §4.4 a glyph needs
reconstruction if its symbol is missing or empty, or its confidence is below
0.7, or its bounding box's width or height is below a minimal pixel threshold
(an absent box cannot trigger the size test). -/
def needsReconstruction (symbol : String) (confidence : Rat) (bbox : Option BBox) : Bool :=
  symbol.isEmpty || confidence < 7/10 ||
    (match bbox with
     | some b => decide (b.width < minReconPx) || decide (b.height < minReconPx)
     | none => false)

/-- A persisted glyph match row, as loaded by the batch endpoint for an
already-completed upload. -/
structure StoredMatch where
  symbol : String
  confidence : Rat
  boundingBox : Option BBox
  deriving Repr, DecidableEq

/-- An upload row with its glyph matches included. -/
structure UploadRec where
  status : UploadStatus
  glyphs : List StoredMatch
  scriptType : Option String
  deriving Repr, DecidableEq

/-- A reconstruction candidate as handed to `batchReconstructGlyphs`. -/
structure ReconCand where
  symbol : String
  confidence : Rat
  boundingBox : Option BBox
  deriving Repr, DecidableEq

/-- One member `ReconstructionResult` of a reconstruction batch. -/
structure ReconRes where
  reconstructedGlyph : String
  confidence : Rat
  details : String
  deriving Repr, DecidableEq

/-- The candidates of the already-completed branch (batch route, lines
146-162): stored matches flagged by the damage policy, with a zero box
substituted for an absent one. -/
def candidatesCompleted (up : UploadRec) : List ReconCand :=
  (up.glyphs.filter (fun g => needsReconstruction g.symbol g.confidence g.boundingBox)).map
    (fun g => { symbol := g.symbol, confidence := g.confidence,
                boundingBox := some (g.boundingBox.getD ⟨0, 0, 0, 0⟩) })

/-- The candidates of the fresh-processing branch (batch route, lines
273-289).  The source passes the glyph's numeric `position` where a bounding
box is expected, so the size test sees no usable box; this is modelled as an
absent box. -/
def candidatesFresh (res : ProcessingResult) : List ReconCand :=
  (res.glyphs.filter (fun g => needsReconstruction g.symbol g.confidence none)).map
    (fun g => { symbol := g.symbol, confidence := g.confidence, boundingBox := none })

/-- The aggregate confidence stored on a `ReconstructionVersion`:
`results.reduce((sum, r) => sum + r.confidence, 0) / results.length`. -/
def reconVersionConfidence (rs : List ReconRes) : Rat :=
  ((rs.map (fun r => r.confidence)).sum) / (rs.length : Rat)

/-- The fields of a created `ReconstructionVersion` row that the claims are
about. -/
structure CreatedVersion where
  versionNumber : Nat
  confidence : Rat
  method : String
  deriving Repr, DecidableEq

/-- The per-run summary object returned by `processUpload` on success. -/
structure RunSummary where
  glyphsProcessed : Nat
  reconstructions : Nat
  deriving Repr, DecidableEq

/-- What a `processUpload` call produced: the created reconstruction version,
if any, and the summary. -/
structure RunEffects where
  createdVersion : Option CreatedVersion
  summary : RunSummary
  deriving Repr, DecidableEq

/-- Embeds `processUpload` of the batch endpoint.  `existingVersionCount` is the
number of `ReconstructionVersion` rows already persisted for this upload;
`proc` is the outcome of `processAncientText` on the upload's file (consulted
only on the fresh-processing path); `recon` is the `batchReconstructGlyphs`
backend.  The already-completed branch numbers the new version
`existingVersionCount + 1`; the fresh-processing branch hardcodes version
number 1. -/
def processUpload (u : Option UploadRec) (enableRecon : Bool)
    (existingVersionCount : Nat) (proc : Except String ProcessingResult)
    (recon : List ReconCand → List ReconRes) : Except String RunEffects :=
  match u with
  | none => .error "Upload not found"
  | some up =>
    if up.status = .completed then
      if enableRecon then
        let cands := candidatesCompleted up
        if !cands.isEmpty then
          let rs := recon cands
          .ok { createdVersion := some ⟨existingVersionCount + 1,
                  reconVersionConfidence rs, "gemini-grm"⟩,
                summary := ⟨up.glyphs.length, rs.length⟩ }
        else .ok { createdVersion := none, summary := ⟨up.glyphs.length, 0⟩ }
      else .ok { createdVersion := none, summary := ⟨up.glyphs.length, 0⟩ }
    else
      match proc with
      | .error e => .error e
      | .ok res =>
        if enableRecon then
          let cands := candidatesFresh res
          if !cands.isEmpty then
            let rs := recon cands
            .ok { createdVersion := some ⟨1, reconVersionConfidence rs, "gemini-grm"⟩,
                  summary := ⟨res.glyphs.length, rs.length⟩ }
          else .ok { createdVersion := none, summary := ⟨res.glyphs.length, 0⟩ }
        else .ok { createdVersion := none, summary := ⟨res.glyphs.length, 0⟩ }

/-- Status of one aggregate-result entry. -/
inductive EntryStatus where
  | success | failed
  deriving Repr, DecidableEq

/-- One entry of the aggregate result list of the batch endpoint. -/
structure BatchEntry where
  uploadId : Nat
  status : EntryStatus
  error : Option String
  glyphsProcessed : Option Nat
  reconstructions : Option Nat
  deriving Repr, DecidableEq

/-- How one settled run is recorded: a fulfilled run contributes its success
summary, a rejected run contributes a failed entry with its error message. -/
def entryOfOutcome (uid : Nat) : Except String RunSummary → BatchEntry
  | .ok s => ⟨uid, .success, none, some s.glyphsProcessed, some s.reconstructions⟩
  | .error m => ⟨uid, .failed, some m, none, none⟩

/-- Fuelled chunking loop (`for (i = 0; i < uploads.length; i += maxConcurrent)`).
The fuel is the list length, which suffices for any positive chunk size. -/
def chunksGo (mc : Nat) : Nat → List α → List (List α)
  | _, [] => []
  | 0, l => [l]
  | fuel + 1, x :: xs => ((x :: xs).take mc) :: chunksGo mc fuel ((x :: xs).drop mc)

/-- Partition into consecutive chunks of size `mc`. -/
def chunksOf (mc : Nat) (l : List α) : List (List α) :=
  chunksGo mc l.length l

/-- The batch POST handler's aggregation (batch route, lines 59-105): in
parallel mode the owned uploads are chunked by `maxConcurrent` and each
chunk's runs are settled independently; in sequential mode each run is wrapped
in its own try/catch.  `outcome` gives each run's settled result. -/
def batchProcess (parallel : Bool) (maxConcurrent : Nat) (uploads : List Nat)
    (outcome : Nat → Except String RunSummary) : List BatchEntry :=
  if parallel then
    (chunksOf maxConcurrent uploads).flatMap
      (fun b => b.map (fun u => entryOfOutcome u (outcome u)))
  else
    uploads.map (fun u => entryOfOutcome u (outcome u))

/-! ## Shared lemmas -/

theorem snd_mem_of_mem_enum {α : Type} {l : List α} {p : Nat × α} (h : p ∈ l.enum) :
    p.2 ∈ l := by
  obtain ⟨hlt, hv⟩ := List.getElem?_eq_some_iff.mp (List.mem_enum_iff_getElem?.mp h)
  exact hv ▸ List.getElem_mem hlt

theorem truthyS_of_not_placeholder {m : Option String}
    (h : isPlaceholderMeaning m = false) : truthyS m = true := by
  unfold isPlaceholderMeaning at h
  cases htm : truthyS m with
  | false => simp [htm] at h
  | true => rfl

theorem max_jsOrRat (o : Option Rat) :
    max (jsOrRat o (3/4)) (3/4) = max (o.getD 0) (3/4) := by
  cases o with
  | none => simp [jsOrRat]; norm_num
  | some v =>
    by_cases hv : v = 0
    · simp [jsOrRat, hv]; norm_num
    · simp [jsOrRat, hv]

/-! ## C1: the tiered confidence rule of `matchGlyphs` -/

/-- The tiered confidence rule exactly as the specification states it
(spec §4.2 step 5): 0.85 with a fresh AI meaning; else, for a character found
in the store with a non-placeholder meaning, `max(stored confidence, 0.75)`;
else 0.70 when the character is absent from the store and the last-resort
single-character lookup succeeds; else 0.60. -/
def tierConfidence (env : Env) (store : List GlyphRecord) (aiM : Char → Option String)
    (fb : Char → Option String) (c : Char) : Rat :=
  if truthyS (aiM c) then 17/20
  else
    match findGlyph store c with
    | some g =>
      if !isPlaceholderMeaning (dbMeaningOf g) then max ((g.confidence).getD 0) (3/4)
      else 3/5
    | none => if (singleCharFB env fb c).isSome then 7/10 else 3/5

/-- C1: every `GlyphMatch` emitted by `matchGlyphs` carries the tiered
confidence of spec §4.2 step 5 for its character, and whenever a fresh AI
meaning is available it is the meaning emitted (AI wins over the store). -/
theorem matchGlyphs_confidence_tiers (env : Env) (store : List GlyphRecord)
    (aiM fb : Char → Option String) (text : String) (m : GlyphMatch)
    (hm : m ∈ matchGlyphs env store aiM fb text) :
    ∃ c : Char, m.symbol = c.toString ∧
      m.confidence = tierConfidence env store aiM fb c ∧
      (truthyS (aiM c) = true → m.meaning = aiM c) := by
  unfold matchGlyphs at hm
  split at hm
  · simp at hm
  · obtain ⟨p, _, hmc⟩ := List.mem_filterMap.mp hm
    refine ⟨p.2, ?_⟩
    unfold matchChar at hmc
    unfold tierConfidence
    split at hmc
    · exact absurd hmc (by simp)
    · cases hg : findGlyph store p.2 with
      | some g =>
        rw [hg] at hmc
        simp only [Option.some.injEq] at hmc
        subst hmc
        by_cases hai : truthyS (aiM p.2) = true
        · simp [hai]
        · simp only [Bool.not_eq_true] at hai
          by_cases hph : isPlaceholderMeaning (dbMeaningOf g) = true
          · simp [hai, hph]
          · simp only [Bool.not_eq_true] at hph
            have hdb := truthyS_of_not_placeholder hph
            simp [hai, hph, hdb, max_jsOrRat]
      | none =>
        rw [hg] at hmc
        by_cases hai : truthyS (aiM p.2) = true
        · rw [if_pos hai] at hmc
          simp only [Option.some.injEq] at hmc
          subst hmc
          simp [hai]
        · simp only [Bool.not_eq_true] at hai
          rw [if_neg (by simp [hai])] at hmc
          cases hfb : singleCharFB env fb p.2 with
          | some v =>
            rw [hfb] at hmc
            simp only [Option.some.injEq] at hmc
            subst hmc
            simp [hai, hfb]
          | none =>
            rw [hfb] at hmc
            simp only [Option.some.injEq] at hmc
            subst hmc
            simp [hai, hfb]

/-- Witness for C1: a one-character text over an empty store with no AI
meanings yields a match in the bottom tier 0.60. -/
theorem matchGlyphs_confidence_tiers_witness :
    ∃ m ∈ matchGlyphs ⟨false, false, false⟩ [] (fun _ => none) (fun _ => none) "道",
      ∃ c : Char, m.symbol = c.toString ∧
        m.confidence = tierConfidence ⟨false, false, false⟩ [] (fun _ => none)
          (fun _ => none) c ∧
        (truthyS (none : Option String) = true → m.meaning = none) := by
  have h : matchGlyphs ⟨false, false, false⟩ [] (fun _ => none) (fun _ => none) "道" =
      [⟨"道", 3/5, 0, some (synthBox 0), some noMeaningMsg⟩] := rfl
  have hm : (⟨"道", 3/5, 0, some (synthBox 0), some noMeaningMsg⟩ : GlyphMatch) ∈
      matchGlyphs ⟨false, false, false⟩ [] (fun _ => none) (fun _ => none) "道" := by
    rw [h]
    exact List.mem_singleton.mpr rfl
  exact ⟨_, hm, matchGlyphs_confidence_tiers _ _ _ _ _ _ hm⟩

/-! ## C10: trivial texts produce no matches and touch no external service -/

/-- C10: when every character of the input text is whitespace or excluded
punctuation, `matchGlyphs` returns the empty list, and its result does not
depend on the semantic-service oracles (no bulk meanings request, no batched
fallback, no single-character lookup is consulted). -/
theorem matchGlyphs_trivial_text_empty (env : Env) (store : List GlyphRecord)
    (netP netB netP' netB' : Option (List (Char × String)))
    (fb fb' : Char → Option String) (text : String)
    (h : ∀ c ∈ text.toList, isWs c = true ∨ c ∈ exclusionSet) :
    matchGlyphsTop env store netP netB fb text = [] ∧
      matchGlyphsTop env store netP netB fb text =
        matchGlyphsTop env store netP' netB' fb' text := by
  have hempty : ∀ (nP nB : Option (List (Char × String))) (f : Char → Option String),
      matchGlyphsTop env store nP nB f text = [] := by
    intro nP nB f
    unfold matchGlyphsTop matchGlyphs
    split
    · rfl
    · apply List.filterMap_eq_nil_iff.mpr
      intro p hp
      have hc : p.2 ∈ strippedChars text := snd_mem_of_mem_enum hp
      have hc' := List.mem_filter.mp hc
      have hcl : p.2 ∈ text.toList := hc'.1
      have hnw : isWs p.2 = false := by
        have := hc'.2
        simpa using this
      have hex : p.2 ∈ exclusionSet := by
        rcases h p.2 hcl with hw | he
        · rw [hw] at hnw; exact absurd hnw (by simp)
        · exact he
      unfold matchChar
      simp [hex]
  exact ⟨hempty netP netB fb, by rw [hempty netP netB fb, hempty netP' netB' fb']⟩

/-- Witness for C10: a text of spaces and excluded punctuation yields no
matches with any oracle values. -/
theorem matchGlyphs_trivial_text_empty_witness :
    matchGlyphsTop ⟨true, false, false⟩ [] (some [('道', "way")]) none
        (fun _ => some "meaning") " .,! ?" = [] ∧
      matchGlyphsTop ⟨true, false, false⟩ [] (some [('道', "way")]) none
          (fun _ => some "meaning") " .,! ?" =
        matchGlyphsTop ⟨true, false, false⟩ [] none none (fun _ => none) " .,! ?" :=
  matchGlyphs_trivial_text_empty ⟨true, false, false⟩ [] (some [('道', "way")]) none
    none none (fun _ => some "meaning") (fun _ => none) " .,! ?" (by decide)

/-! ## C2 and C8: the OCR fallback policy and the verification pass -/

/-- The `lastError` value accumulated over a list of responses. -/
def lastErrAcc (rs : List GResp) (le : Option String) : Option String :=
  rs.foldl lastErrStep le

theorem postProcess_id (pp : Option Bool) (text : String) :
    postProcessWithAncientChineseModels pp text = text := by
  unfold postProcessWithAncientChineseModels
  split
  · rfl
  · cases pp with
    | none => rfl
    | some b => cases b <;> rfl

theorem geminiLoop_exhausted (rs : List GResp) (le : Option String)
    (h : ∀ r ∈ rs, advances r = true) :
    geminiLoop rs le = ⟨"", 0, .gemini,
      some ((lastErrAcc rs le).getD "Unknown Gemini API error")⟩ := by
  induction rs generalizing le with
  | nil => rfl
  | cons r rest ih =>
    have hr : advances r = true := h r (by simp)
    have hrest : ∀ x ∈ rest, advances x = true := fun x hx => h x (by simp [hx])
    cases r with
    | notFound => simpa [geminiLoop, lastErrAcc, lastErrStep] using ih le hrest
    | rateLimited => simpa [geminiLoop, lastErrAcc, lastErrStep] using ih le hrest
    | httpError d =>
      simpa [geminiLoop, lastErrAcc, lastErrStep] using
        ih (some ("Gemini API error: " ++ d)) hrest
    | thrown m => simpa [geminiLoop, lastErrAcc, lastErrStep] using ih (some m) hrest
    | ok t =>
      have hte : t.isEmpty = true := by simpa [advances] using hr
      simpa [geminiLoop, hte, lastErrAcc, lastErrStep] using ih le hrest

theorem geminiLoop_first_success (pre : List GResp) (t : String) (rest : List GResp)
    (le : Option String) (hpre : ∀ r ∈ pre, advances r = true)
    (ht : t.isEmpty = false) :
    geminiLoop (pre ++ .ok t :: rest) le = ⟨jsTrim t, 9/10, .gemini, none⟩ := by
  induction pre generalizing le with
  | nil => simp [geminiLoop, ht]
  | cons r rs ih =>
    have hrest : ∀ x ∈ rs, advances x = true := fun x hx => hpre x (by simp [hx])
    cases r with
    | notFound => simpa [geminiLoop] using ih le hrest
    | rateLimited => simpa [geminiLoop] using ih le hrest
    | httpError d => simpa [geminiLoop] using ih (some ("Gemini API error: " ++ d)) hrest
    | thrown m => simpa [geminiLoop] using ih (some m) hrest
    | ok s =>
      have hse : s.isEmpty = true := by simpa [advances] using hpre (.ok s) (by simp)
      simpa [geminiLoop, hse] using ih le hrest

/-- C2 (amended): with a configured key, the configuration loop returns
immediately on the first configuration yielding non-empty text, with fixed
confidence 0.90, independently of every later configuration; a 404, a 429, an
application error or an empty-text success each advance with no retry.  When
every configuration is exhausted, the inner `extractTextWithGemini` result has
empty text, confidence 0 and the last captured error message — but
`extractTextFromImage` then discards that result and returns the fixed generic
failure message `allFailedMsg` instead of the last captured error. -/
theorem extract_fallback_policy (env : Env) (pp : Option Bool) (rs pre rest : List GResp)
    (t : String) (le : Option String) (hkey : env.geminiKey = true)
    (hpre : ∀ r ∈ pre, advances r = true) (hrs : ∀ r ∈ rs, advances r = true)
    (ht : (jsTrim t).isEmpty = false) :
    extractTextFromImage env (pre ++ .ok t :: rest) pp =
        ⟨jsTrim t, 9/10, .gemini, none⟩ ∧
      geminiLoop rs le = ⟨"", 0, .gemini,
        some ((lastErrAcc rs le).getD "Unknown Gemini API error")⟩ ∧
      extractTextFromImage env rs pp = fallbackFailure := by
  have htb : t.isEmpty = false := by
    cases hte : t.isEmpty with
    | false => rfl
    | true =>
      have : t = "" := (String.isEmpty_iff t).mp hte
      rw [this] at ht
      exact absurd ht (by decide)
  refine ⟨?_, geminiLoop_exhausted rs le hrs, ?_⟩
  · unfold extractTextFromImage
    rw [hkey]
    have hfirst := geminiLoop_first_success pre t rest none hpre htb
    unfold extractTextWithGemini
    rw [hfirst]
    simp only [ht, postProcess_id, if_true]
    simp
  · unfold extractTextFromImage
    rw [hkey]
    unfold extractTextWithGemini
    rw [geminiLoop_exhausted rs none hrs]
    rfl

/-- Witness for C2's amended theorem at concrete inputs. -/
theorem extract_fallback_policy_witness :
    extractTextFromImage ⟨true, false, false⟩
        ([.notFound] ++ .ok " 道 " :: [.rateLimited]) (some true) =
        ⟨jsTrim " 道 ", 9/10, .gemini, none⟩ ∧
      geminiLoop [.httpError "boom"] none = ⟨"", 0, .gemini,
        some ((lastErrAcc [.httpError "boom"] none).getD "Unknown Gemini API error")⟩ ∧
      extractTextFromImage ⟨true, false, false⟩ [.httpError "boom"] (some true) =
        fallbackFailure :=
  extract_fallback_policy ⟨true, false, false⟩ (some true) [.httpError "boom"]
    [.notFound] [.rateLimited] " 道 " none rfl (by decide) (by decide) (by decide)

/-- Counterexample for C2 as stated: after exhausting every configuration
(first an application error "boom", then a 404, a 429 and an empty-text
success), the last captured error message is "Gemini API error: boom" — as the
inner `extractTextWithGemini` result records — yet `extractTextFromImage`
returns a failure carrying the fixed generic message, not the last captured
error message. -/
theorem extract_error_message_cex :
    (extractTextWithGemini [.httpError "boom", .notFound, .rateLimited, .ok ""]).error =
        some "Gemini API error: boom" ∧
      extractTextFromImage ⟨true, false, false⟩
          [.httpError "boom", .notFound, .rateLimited, .ok ""] (some true) =
        fallbackFailure ∧
      allFailedMsg ≠ "Gemini API error: boom" := by
  refine ⟨rfl, rfl, ?_⟩
  decide

/-- C8: the verification pass is validation-only: it returns the OCR text
unchanged on every oracle outcome, so `extractTextFromImage` passes the first
successful method result through with text and confidence untouched; and the
confidence-boost expression it would apply on a text change is bounded by
+0.05 and capped at 0.95. -/
theorem postprocess_validation_only (env : Env) (rs : List GResp) (pp : Option Bool)
    (text : String) (c : Rat) :
    postProcessWithAncientChineseModels pp text = text ∧
      extractTextFromImage env rs pp =
        (if env.geminiKey && !(extractTextWithGemini rs).text.isEmpty
          then extractTextWithGemini rs else fallbackFailure) ∧
      ppBump c ≤ 19/20 ∧ ppBump c ≤ c + 1/20 := by
  refine ⟨postProcess_id pp text, ?_, min_le_right _ _, min_le_left _ _⟩
  unfold extractTextFromImage
  cases hk : env.geminiKey with
  | false => simp
  | true =>
    cases hte : (extractTextWithGemini rs).text.isEmpty with
    | false => simp [hte, postProcess_id]
    | true => simp [hte]

/-! ## C4: FAILED is reached exactly on unrecovered total extraction failure -/

/-- C4: `processAncientText` throws — and the process endpoint then persists
FAILED — exactly when OCR extraction yields empty text and the development
fallback is not enabled (`NODE_ENV=development` together with
`ENABLE_OCR_FALLBACK=true`).  The translation backends, the bulk meanings
request, the batched fallback and the single-character lookup are quantified
over all their outcomes here, so none of their failures ever causes a throw:
the run degrades and completes. -/
theorem processAncientText_failed_iff (env : Env) (ocrRs : List GResp) (pp : Option Bool)
    (trs : List TResp) (netP netB : Option (List (Char × String)))
    (fb : Char → Option String) (store : List GlyphRecord) :
    ((∃ e, processAncientText env ocrRs pp trs netP netB fb store = .error e) ↔
        ((extractTextFromImage env ocrRs pp).text.isEmpty = true ∧
          (env.nodeDev && env.ocrFallbackFlag) = false)) ∧
      (postRunStatus (processAncientText env ocrRs pp trs netP netB fb store) = .failed ↔
        ((extractTextFromImage env ocrRs pp).text.isEmpty = true ∧
          (env.nodeDev && env.ocrFallbackFlag) = false)) := by
  unfold processAncientText postRunStatus
  cases hte : (extractTextFromImage env ocrRs pp).text.isEmpty with
  | false => simp [hte]
  | true =>
    cases hdev : (env.nodeDev && env.ocrFallbackFlag) with
    | false => simp [hte, hdev]
    | true => simp [hte, hdev]

/-! ## C9: offline determinism of `generateTranslation` -/

/-- Counterexample for C9 as stated: on empty text (not a phrase-table key)
with an empty glyph list and no key configured, `generateTranslation` returns
the fixed apology with confidence 0, where the claim's characterization
predicts the templated composition with the default confidence 0.70. -/
theorem generateTranslation_empty_text_cex :
    generateTranslation ⟨false, false, false⟩ [] "" [] = ⟨apologyMsg, 0⟩ ∧
      phraseLookup "" = none ∧ (0 : Rat) ≠ 7/10 := by
  refine ⟨rfl, rfl, by norm_num⟩

/-- C9 (amended): with no Gemini key configured, `generateTranslation`
consults no translation backend — its result is identical under any two
backend oracles — and is fully determined by (text, glyphs): the fixed apology
with confidence 0 on empty text; else the static phrase-table string with
confidence 0.90 on an exact key match; otherwise the templated per-glyph
composition with confidence min(mean of glyph confidences, 0.85), the mean
defaulting to 0.70 when the glyph list is empty. -/
theorem generateTranslation_offline_deterministic (env : Env) (trs trs' : List TResp)
    (text : String) (glyphs : List GlyphMatch) (hkey : env.geminiKey = false) :
    generateTranslation env trs text glyphs = generateTranslation env trs' text glyphs ∧
      generateTranslation env trs text glyphs =
        (if text.isEmpty then ⟨apologyMsg, 0⟩
         else
           match phraseLookup text with
           | some t => ⟨t, 9/10⟩
           | none =>
             ⟨templatedTranslation text glyphs,
               min (if glyphs.isEmpty then 7/10
                   else ((glyphs.map (fun g => g.confidence)).sum) / (glyphs.length : Rat))
                 (17/20)⟩) := by
  unfold generateTranslation
  rw [hkey]
  exact ⟨rfl, rfl⟩

/-- Witness for C9's amended theorem: two different backend oracles on the
same keyless input. -/
theorem generateTranslation_offline_deterministic_witness :
    generateTranslation ⟨false, false, false⟩ [.ok "ignored"] "智慧" [] =
        generateTranslation ⟨false, false, false⟩ [.errOther] "智慧" [] ∧
      generateTranslation ⟨false, false, false⟩ [.ok "ignored"] "智慧" [] =
        (if ("智慧" : String).isEmpty then ⟨apologyMsg, 0⟩
         else
           match phraseLookup "智慧" with
           | some t => ⟨t, 9/10⟩
           | none =>
             ⟨templatedTranslation "智慧" ([] : List GlyphMatch),
               min (if ([] : List GlyphMatch).isEmpty then 7/10
                   else ((([] : List GlyphMatch).map (fun g => g.confidence)).sum) /
                     (([] : List GlyphMatch).length : Rat))
                 (17/20)⟩) :=
  generateTranslation_offline_deterministic ⟨false, false, false⟩ [.ok "ignored"]
    [.errOther] "智慧" [] rfl

/-! ## C3: the 道法自然 scenario -/

/-- Counterexample for C3 as stated: with all four symbols absent from the
store and no semantic service configured, `matchGlyphs` does emit four 0.60
matches, but 道法自然 is one of the seven pre-seeded phrase-table keys, so
`generateTranslation` returns the table entry with confidence 0.90, not the
claimed templated translation with confidence min(mean(0.60×4), 0.85) = 0.60. -/
theorem scenario_tao_cex :
    (generateTranslation ⟨false, false, false⟩ [] "道法自然"
        (matchGlyphsTop ⟨false, false, false⟩ [] none none (fun _ => none)
          "道法自然")).confidence = 9/10 ∧
      (9/10 : Rat) ≠ 3/5 := by
  refine ⟨rfl, by norm_num⟩

/-- C3 (amended): in the scenario, `matchGlyphs` emits exactly 4 matches, each
with confidence 0.60 and the sentinel meaning; `generateTranslation` then
returns the static phrase-table translation for 道法自然 with confidence 0.90
(the text is pre-seeded); the templated composition with confidence
min(mean(0.60,0.60,0.60,0.60), 0.85) = 0.60 arises for a four-character text
outside the table. -/
theorem scenario_tao_amended :
    matchGlyphsTop ⟨false, false, false⟩ [] none none (fun _ => none) "道法自然" =
        [⟨"道", 3/5, 0, some (synthBox 0), some noMeaningMsg⟩,
         ⟨"法", 3/5, 1, some (synthBox 1), some noMeaningMsg⟩,
         ⟨"自", 3/5, 2, some (synthBox 2), some noMeaningMsg⟩,
         ⟨"然", 3/5, 3, some (synthBox 3), some noMeaningMsg⟩] ∧
      generateTranslation ⟨false, false, false⟩ [] "道法自然"
          (matchGlyphsTop ⟨false, false, false⟩ [] none none (fun _ => none) "道法自然") =
        ⟨"The Tao follows nature - A fundamental concept in Taoist philosophy suggesting that the natural way of things is the best way.", 9/10⟩ ∧
      (generateTranslation ⟨false, false, false⟩ [] "寒蝉鸣泣"
          [⟨"寒", 3/5, 0, some (synthBox 0), some noMeaningMsg⟩,
           ⟨"蝉", 3/5, 1, some (synthBox 1), some noMeaningMsg⟩,
           ⟨"鸣", 3/5, 2, some (synthBox 2), some noMeaningMsg⟩,
           ⟨"泣", 3/5, 3, some (synthBox 3), some noMeaningMsg⟩]).confidence = 3/5 := by
  refine ⟨rfl, rfl, ?_⟩
  show min ((3/5 + (3/5 + (3/5 + (3/5 + (0 : Rat))))) / ((4 : Nat) : Rat)) (17/20) = 3/5
  norm_num

/-! ## C5 and C6: reconstruction version numbering and aggregate confidence -/

/-- Counterexample for C5 as stated: on the fresh-processing path (upload not
yet COMPLETED — e.g. re-queued as PENDING after a failed single-process run,
which deletes glyph matches and translations but not reconstruction versions),
with one `ReconstructionVersion` already persisted, the created version gets
the hardcoded number 1, not count + 1 = 2. -/
theorem processUpload_version_hardcoded_cex :
    (∃ eff, processUpload (some ⟨.pending, [], none⟩) true 1
        (.ok ⟨"道", [⟨"", 1, 0, some (synthBox 0), some noMeaningMsg⟩],
          "Traditional Chinese", 1, "gemini"⟩)
        (fun _ => [⟨"灬", 1, "reconstructed"⟩]) = .ok eff ∧
      ∃ v, eff.createdVersion = some v ∧ v.versionNumber = 1) ∧
      (1 : Nat) ≠ 1 + 1 := by
  refine ⟨⟨_, rfl, _, rfl, rfl⟩, by decide⟩

/-- C5 (amended): the version number of a created `ReconstructionVersion` is
`count of prior versions + 1` on the already-completed branch of
`processUpload`, while the fresh-processing branch always assigns the constant
version number 1 (correct only when no prior version exists). -/
theorem processUpload_versionNumber (u : UploadRec) (enableR : Bool) (cnt : Nat)
    (proc : Except String ProcessingResult) (recon : List ReconCand → List ReconRes)
    (eff : RunEffects) (v : CreatedVersion)
    (heff : processUpload (some u) enableR cnt proc recon = .ok eff)
    (hv : eff.createdVersion = some v) :
    (u.status = .completed → v.versionNumber = cnt + 1) ∧
      (u.status ≠ .completed → v.versionNumber = 1) := by
  cases proc with
  | error e =>
    simp only [processUpload] at heff
    split at heff
    · rename_i hst
      refine ⟨fun _ => ?_, fun h => absurd hst h⟩
      split at heff
      · split at heff
        · injection heff with h
          subst h
          cases hv
          rfl
        · injection heff with h
          subst h
          exact Option.noConfusion hv
      · injection heff with h
        subst h
        exact Option.noConfusion hv
    · cases heff
  | ok res =>
    simp only [processUpload] at heff
    split at heff
    · rename_i hst
      refine ⟨fun _ => ?_, fun h => absurd hst h⟩
      split at heff
      · split at heff
        · injection heff with h
          subst h
          cases hv
          rfl
        · injection heff with h
          subst h
          exact Option.noConfusion hv
      · injection heff with h
        subst h
        exact Option.noConfusion hv
    · rename_i hst
      refine ⟨fun h => absurd h hst, fun _ => ?_⟩
      split at heff
      · split at heff
        · injection heff with h
          subst h
          cases hv
          rfl
        · injection heff with h
          subst h
          exact Option.noConfusion hv
      · injection heff with h
        subst h
        exact Option.noConfusion hv

/-- Witness for C5's amended theorem: the already-completed branch with five
prior versions numbers the new one 6. -/
theorem processUpload_versionNumber_witness :
    ∃ eff v, processUpload (some ⟨.completed, [⟨"", 1, none⟩], none⟩) true 5
        (.error "unused on this branch") (fun _ => [⟨"示", 1, "detail"⟩]) = .ok eff ∧
      eff.createdVersion = some v ∧
      ((⟨.completed, [⟨"", 1, none⟩], none⟩ : UploadRec).status = .completed →
        v.versionNumber = 5 + 1) ∧
      ((⟨.completed, [⟨"", 1, none⟩], none⟩ : UploadRec).status ≠ .completed →
        v.versionNumber = 1) := by
  refine ⟨_, _, rfl, rfl,
    processUpload_versionNumber ⟨.completed, [⟨"", 1, none⟩], none⟩ true 5
      (.error "unused on this branch") (fun _ => [⟨"示", 1, "detail"⟩]) _ _ rfl rfl⟩

/-- Arithmetic mean of a list of rationals. -/
def arithMean (l : List Rat) : Rat :=
  l.sum / (l.length : Rat)

theorem reconVersionConfidence_eq_mean (rs : List ReconRes) :
    reconVersionConfidence rs = arithMean (rs.map (fun r => r.confidence)) := by
  unfold reconVersionConfidence arithMean
  rw [List.length_map]

/-- C6: whenever `processUpload` creates a `ReconstructionVersion`, its stored
confidence equals the arithmetic mean of its member results' confidences —
the members being the backend's results for the flagged candidates of the
branch taken.  The hypothesis `hlen` is the contract of
`batchReconstructGlyphs` (one result per candidate, spec §4.4), needed for the
member list to be non-empty. -/
theorem reconVersion_confidence_is_mean (u : UploadRec) (enableR : Bool) (cnt : Nat)
    (proc : Except String ProcessingResult) (recon : List ReconCand → List ReconRes)
    (eff : RunEffects) (v : CreatedVersion)
    (hlen : ∀ cs, (recon cs).length = cs.length)
    (heff : processUpload (some u) enableR cnt proc recon = .ok eff)
    (hv : eff.createdVersion = some v) :
    ∃ rs : List ReconRes, rs ≠ [] ∧
      (rs = recon (candidatesCompleted u) ∨
        ∃ res, proc = .ok res ∧ rs = recon (candidatesFresh res)) ∧
      v.confidence = arithMean (rs.map (fun r => r.confidence)) := by
  cases proc with
  | error e =>
    simp only [processUpload] at heff
    split at heff
    · split at heff
      · split at heff
        · rename_i hc
          injection heff with h
          subst h
          cases hv
          refine ⟨recon (candidatesCompleted u), ?_, Or.inl rfl,
            (reconVersionConfidence_eq_mean _).symm ▸ rfl⟩
          intro hnil
          have h2 := hlen (candidatesCompleted u)
          rw [hnil] at h2
          have h3 : candidatesCompleted u = [] := List.length_eq_zero.mp h2.symm
          rw [h3] at hc
          simp at hc
        · injection heff with h
          subst h
          exact Option.noConfusion hv
      · injection heff with h
        subst h
        exact Option.noConfusion hv
    · cases heff
  | ok res =>
    simp only [processUpload] at heff
    split at heff
    · split at heff
      · split at heff
        · rename_i hc
          injection heff with h
          subst h
          cases hv
          refine ⟨recon (candidatesCompleted u), ?_, Or.inl rfl,
            (reconVersionConfidence_eq_mean _).symm ▸ rfl⟩
          intro hnil
          have h2 := hlen (candidatesCompleted u)
          rw [hnil] at h2
          have h3 : candidatesCompleted u = [] := List.length_eq_zero.mp h2.symm
          rw [h3] at hc
          simp at hc
        · injection heff with h
          subst h
          exact Option.noConfusion hv
      · injection heff with h
        subst h
        exact Option.noConfusion hv
    · split at heff
      · split at heff
        · rename_i hc
          injection heff with h
          subst h
          cases hv
          refine ⟨recon (candidatesFresh res), ?_, Or.inr ⟨res, rfl, rfl⟩,
            (reconVersionConfidence_eq_mean _).symm ▸ rfl⟩
          intro hnil
          have h2 := hlen (candidatesFresh res)
          rw [hnil] at h2
          have h3 : candidatesFresh res = [] := List.length_eq_zero.mp h2.symm
          rw [h3] at hc
          simp at hc
        · injection heff with h
          subst h
          exact Option.noConfusion hv
      · injection heff with h
        subst h
        exact Option.noConfusion hv

/-- Witness for C6: one flagged candidate, one member result, mean = that
result's confidence. -/
theorem reconVersion_confidence_is_mean_witness :
    ∃ eff v, processUpload (some ⟨.completed, [⟨"", 1, none⟩], none⟩) true 0
        (.error "unused on this branch")
        (fun cs => cs.map (fun c => ⟨c.symbol, 1, "detail"⟩)) = .ok eff ∧
      eff.createdVersion = some v ∧
      ∃ rs : List ReconRes, rs ≠ [] ∧
        (rs = (fun (cs : List ReconCand) => cs.map (fun c => (⟨c.symbol, 1, "detail"⟩ : ReconRes)))
            (candidatesCompleted ⟨.completed, [⟨"", 1, none⟩], none⟩) ∨
          ∃ res, (.error "unused on this branch" : Except String ProcessingResult) = .ok res ∧
            rs = (fun (cs : List ReconCand) => cs.map (fun c => (⟨c.symbol, 1, "detail"⟩ : ReconRes)))
              (candidatesFresh res)) ∧
        v.confidence = arithMean (rs.map (fun r => r.confidence)) := by
  refine ⟨_, _, rfl, rfl,
    reconVersion_confidence_is_mean ⟨.completed, [⟨"", 1, none⟩], none⟩ true 0
      (.error "unused on this branch")
      (fun cs => cs.map (fun c => ⟨c.symbol, 1, "detail"⟩)) _ _
      (fun cs => by simp) rfl rfl⟩

/-! ## C7: per-run isolation of the batch aggregate -/

theorem chunksGo_flatMap {α β : Type} (f : α → β) (mc : Nat) :
    ∀ (fuel : Nat) (l : List α),
      (chunksGo mc fuel l).flatMap (fun b => b.map f) = l.map f := by
  intro fuel
  induction fuel with
  | zero =>
    intro l
    cases l <;> simp [chunksGo]
  | succ n ih =>
    intro l
    cases l with
    | nil => simp [chunksGo]
    | cons x xs =>
      show (((x :: xs).take mc).map f) ++
          ((chunksGo mc n ((x :: xs).drop mc)).flatMap (fun b => b.map f)) = (x :: xs).map f
      rw [ih, ← List.map_append, List.take_append_drop]

/-- C7: for a batch over owned uploads, sequential processing and chunked
parallel processing (any positive `maxConcurrent`) both yield exactly one
aggregate entry per upload, each determined solely by that upload's own run
outcome — so a throwing run produces a failed entry for that upload only and
leaves every sibling's entry unchanged.  In particular, for 5 runs with
`maxConcurrent = 2` where run #3 throws, the aggregate holds exactly 4 success
entries and 1 failed entry, with runs 1, 2, 4, 5 all reporting success. -/
theorem batch_aggregate_isolation (parallel : Bool) (mc : Nat) (uploads : List Nat)
    (outcome : Nat → Except String RunSummary) (_hmc : 0 < mc) :
    batchProcess parallel mc uploads outcome =
        uploads.map (fun u => entryOfOutcome u (outcome u)) ∧
      (batchProcess parallel mc uploads outcome).length = uploads.length ∧
      ((batchProcess true 2 [1, 2, 3, 4, 5]
          (fun u => if u = 3 then .error "Processing failed" else .ok ⟨4, 0⟩)).map
            (fun e => (e.uploadId, e.status)) =
          [(1, .success), (2, .success), (3, .failed), (4, .success), (5, .success)] ∧
        ((batchProcess true 2 [1, 2, 3, 4, 5]
            (fun u => if u = 3 then .error "Processing failed" else .ok ⟨4, 0⟩)).filter
              (fun e => e.status == .success)).length = 4 ∧
        ((batchProcess true 2 [1, 2, 3, 4, 5]
            (fun u => if u = 3 then .error "Processing failed" else .ok ⟨4, 0⟩)).filter
              (fun e => e.status == .failed)).length = 1) := by
  have hmain : batchProcess parallel mc uploads outcome =
      uploads.map (fun u => entryOfOutcome u (outcome u)) := by
    unfold batchProcess
    cases parallel with
    | false => rfl
    | true =>
      unfold chunksOf
      exact chunksGo_flatMap _ mc uploads.length uploads
  refine ⟨hmain, ?_, rfl, rfl, rfl⟩
  rw [hmain, List.length_map]

/-- Witness for C7 at the scenario's concrete inputs. -/
theorem batch_aggregate_isolation_witness :
    batchProcess true 2 [1, 2, 3, 4, 5]
        (fun u => if u = 3 then .error "Processing failed" else .ok ⟨4, 0⟩) =
      [1, 2, 3, 4, 5].map (fun u => entryOfOutcome u
        (if u = 3 then .error "Processing failed" else .ok ⟨4, 0⟩)) :=
  (batch_aggregate_isolation true 2 [1, 2, 3, 4, 5]
    (fun u => if u = 3 then .error "Processing failed" else .ok ⟨4, 0⟩)
    (by decide)).1

end RuneX
